import Mathlib

/-!
Shallow embedding of the CHATHOLA chat client (a React/Supabase/Firebase
direct-messaging and group-chat application) for verifying its
natural-language specification.

The application's data access is a set of declarative store queries and
state-update handlers; each is translated here into a pure Lean function
over explicit table/state values:

* timestamps (`created_at`, `last_read_at`) are modelled as `Int` epoch
  values, matching the code's `new Date(x).getTime()` comparisons;
* a Supabase query chain (`filter` / `order` / `count`) becomes a
  `List.filter` / `List.insertionSort` / `List.length` pipeline;
* the handlers' implicit environment (authenticated user, selected peer,
  upload/insert outcomes of the hosted store) becomes explicit parameters;
* `localeCompare` on display names is modelled as the lexicographic
  comparison of the strings.
-/

namespace Chathola

/-- The columns of a `files` / `group_files` row that the client joins onto a
message (`select(file_name, file_type, firebase_url)`). -/
structure FileView where
  file_name : String
  file_type : String
  firebase_url : String
deriving DecidableEq, Repr

/-- A row of the `files` / `group_files` table (the columns the client uses). -/
structure FileRow where
  message_id : String
  file_name : String
  file_type : String
  firebase_url : String
deriving DecidableEq, Repr

/-- The joined view of a `files` row. -/
def FileRow.view (f : FileRow) : FileView :=
  ⟨f.file_name, f.file_type, f.firebase_url⟩

/-- The attachment rows joined to message `mid`: the embedding of
`from(files).select(file_name, file_type, firebase_url).eq(message_id, mid)`. -/
def viewsFor (files : List FileRow) (mid : String) : List FileView :=
  (files.filter (fun f => f.message_id == mid)).map FileRow.view

/-- A row of the `messages` table as the client reads it (`ChatWindow`'s
`Message` interface): note the boolean `read` attribute, and the joined
`files` rows (empty for a bare table row). -/
structure Msg where
  id : String
  sender_id : String
  receiver_id : String
  content : String
  message_type : String
  read : Bool
  created_at : Int
  files : List FileView := []
deriving DecidableEq, Repr

/-- A row of the `profiles` table (the columns the list views select). -/
structure ProfileRow where
  id : String
  email : String
  display_name : String
  online_status : Bool
deriving DecidableEq, Repr

/-- The `display_name` of the profile with id `sid`, as fetched by
`from(profiles).select(display_name).eq(id, sid).single()`. -/
def senderNameOf (profiles : List ProfileRow) (sid : String) : Option String :=
  (profiles.find? (fun p => p.id == sid)).map (fun p => p.display_name)

/-- A file pending in a conversation composer (the DOM `File` value:
name, MIME type and byte size). -/
structure FileInfo where
  name : String
  ftype : String
  size : Nat
deriving DecidableEq, Repr

/-- Handler `handleFileSelect`, defined identically in `ChatWindow` and
`GroupChatWindow`: a chosen file larger than 500 MiB raises an alert and
returns early (the pending attachment keeps its previous value); otherwise
the chosen file becomes the pending attachment. Returns the new pending
attachment and whether the alert fired. -/
def handleFileSelect (prev : Option FileInfo) (chosen : Option FileInfo) :
    Option FileInfo × Bool :=
  match chosen with
  | none => (prev, false)
  | some f =>
    if f.size > 500 * 1024 * 1024 then (prev, true) else (some f, false)

/-- The truthiness test `!newMessage.trim()` of the send guards: the draft
trimmed of leading and trailing whitespace is empty iff every character is
whitespace. -/
def trimEmpty (s : String) : Bool :=
  s.data.all (fun c => c.isWhitespace)

/-- The row inserted into the `files` / `group_files` table after a
successful file send. -/
structure FilePayload where
  message_id : String
  file_name : String
  file_type : String
  file_size : Nat
  firebase_url : String
deriving DecidableEq, Repr

namespace ChatWindow

/-- Per-row effect of `markMessagesAsRead`: the update
`update({read: true}).eq(sender_id, sel).eq(receiver_id, uid).eq(read, false)`
sets `read := true` on a row exactly when the row matches all three filters. -/
def markReadRow (sel uid : String) (m : Msg) : Msg :=
  if m.sender_id = sel ∧ m.receiver_id = uid ∧ m.read = false then
    { m with read := true }
  else m

/-- Function `markMessagesAsRead` from `ChatWindow`: guarded on a selected peer and a
signed-in user, then the filtered update over the whole `messages` table. -/
def markMessagesAsRead (selectedUserId user : Option String) (table : List Msg) :
    List Msg :=
  match selectedUserId, user with
  | some sel, some uid => table.map (markReadRow sel uid)
  | _, _ => table

/-- The `.or(and(sender.eq.uid, receiver.eq.sel), and(sender.eq.sel, receiver.eq.uid))`
filter of `loadMessages`: a message belongs to the open 1:1 conversation. -/
def conversationFilter (uid sel : String) (m : Msg) : Bool :=
  (m.sender_id == uid && m.receiver_id == sel) ||
    (m.sender_id == sel && m.receiver_id == uid)

/-- Attach the joined `files` rows to a message. -/
def attachFiles (files : List FileRow) (m : Msg) : Msg :=
  { m with files := viewsFor files m.id }

/-- Ascending `created_at` order requested by
`.order(created_at, ascending: true)`. -/
def createdLe (a b : Msg) : Prop := a.created_at ≤ b.created_at

instance : DecidableRel createdLe := fun a b => by
  unfold createdLe; infer_instance

instance : IsTotal Msg createdLe :=
  ⟨fun a b => Int.le_total a.created_at b.created_at⟩

instance : IsTrans Msg createdLe :=
  ⟨fun _ _ _ hab hbc => le_trans hab hbc⟩

/-- Function `loadMessages` from `ChatWindow`: guarded on a selected peer and a user,
it fetches the conversation rows with their joined `files`, ordered ascending
by `created_at`; `none` models the early return when the guard fails. -/
def loadMessages (selectedUserId user : Option String) (msgs : List Msg)
    (files : List FileRow) : Option (List Msg) :=
  match selectedUserId, user with
  | some sel, some uid =>
    some (((msgs.filter (conversationFilter uid sel)).map (attachFiles files)).insertionSort
      createdLe)
  | _, _ => none

/-- The `setMessages` updater of the INSERT subscription handler
(lines 68-73): append the pushed message unless a message with the same id
is already in the local list. -/
def dedupAppend (prev : List Msg) (m : Msg) : List Msg :=
  if prev.any (fun x => x.id == m.id) then prev else prev ++ [m]

/-- The INSERT change-feed handler of `ChatWindow`: a pushed `messages` row
is considered only when it belongs to the open conversation; a file message
first gets its `files` rows attached, then the dedup-append runs. (The
handler additionally re-issues `markMessagesAsRead` for peer messages; that
store effect is covered by `markMessagesAsRead` above.) -/
def chatIncoming (selectedUserId user : Option String) (files : List FileRow)
    (prev : List Msg) (newMsg : Msg) : List Msg :=
  match selectedUserId, user with
  | some sel, some uid =>
    if (newMsg.sender_id == sel && newMsg.receiver_id == uid) ||
        (newMsg.sender_id == uid && newMsg.receiver_id == sel) then
      dedupAppend prev
        (if newMsg.message_type == "file" then attachFiles files newMsg else newMsg)
    else prev
  | _, _ => prev

/-- The `messageData` object inserted into the `messages` table by
`sendMessage`. -/
structure MsgPayload where
  sender_id : String
  receiver_id : String
  content : String
  message_type : String
  read : Bool
deriving DecidableEq, Repr

/-- Everything observable about one run of `sendMessage`: the insert payload
sent to the `messages` table (if the run reached the insert), the `files`
row inserted on success, whether the failure alert fired, and the composer
state (draft text and pending file) after the run. -/
structure SendResult where
  attempted : Option MsgPayload
  fileInsert : Option FilePayload
  alerted : Bool
  draftAfter : String
  fileAfter : Option FileInfo
deriving DecidableEq, Repr

/-- Function `sendMessage` from `ChatWindow`. The hosted-store outcomes are explicit:
`uploadResult` is the URL resolved by the file upload (`none` = the upload
rejected), `insertResult` is the id of the inserted row (`none` = the insert
returned an error). The guard returns early when the trimmed draft is empty
and no file is selected, or no user is signed in, or no peer is selected;
a thrown error is caught: the alert fires and the composer is not cleared. -/
def sendMessage (user selectedUserId : Option String) (newMessage : String)
    (selectedFile : Option FileInfo) (uploadResult : Option String)
    (insertResult : Option String) : SendResult :=
  match user, selectedUserId with
  | some uid, some sel =>
    if trimEmpty newMessage = true ∧ selectedFile = none then
      ⟨none, none, false, newMessage, selectedFile⟩
    else
      match selectedFile with
      | some f =>
        match uploadResult with
        | none => ⟨none, none, true, newMessage, selectedFile⟩
        | some url =>
          let payload : MsgPayload := ⟨uid, sel, f.name, "file", false⟩
          match insertResult with
          | none => ⟨some payload, none, true, newMessage, selectedFile⟩
          | some msgId =>
            ⟨some payload,
              if url ≠ "" then some ⟨msgId, f.name, f.ftype, f.size, url⟩ else none,
              false, "", none⟩
      | none =>
        let payload : MsgPayload := ⟨uid, sel, newMessage, "text", false⟩
        match insertResult with
        | none => ⟨some payload, none, true, newMessage, selectedFile⟩
        | some _ => ⟨some payload, none, false, "", none⟩
  | _, _ => ⟨none, none, false, newMessage, selectedFile⟩

end ChatWindow

namespace GroupChatWindow

/-- A row of the `group_messages` table as `GroupChatWindow` reads it, with
the joined `group_files` rows and the sender profile attached after fetch. -/
structure GMsg where
  id : String
  group_id : String
  sender_id : String
  content : String
  message_type : String
  created_at : Int
  sender : Option String := none
  files : List FileView := []
deriving DecidableEq, Repr

/-- Ascending `created_at` order on group messages. -/
def gCreatedLe (a b : GMsg) : Prop := a.created_at ≤ b.created_at

instance : DecidableRel gCreatedLe := fun a b => by
  unfold gCreatedLe; infer_instance

instance : IsTotal GMsg gCreatedLe :=
  ⟨fun a b => Int.le_total a.created_at b.created_at⟩

instance : IsTrans GMsg gCreatedLe :=
  ⟨fun _ _ _ hab hbc => le_trans hab hbc⟩

/-- Function `loadMessages` from `GroupChatWindow`: rows of the open group with
joined `group_files`, ordered ascending by `created_at`, then the sender
profile is attached to every row; `none` models the guard's early return. -/
def loadMessages (selectedGroupId : Option String) (gmsgs : List GMsg)
    (gfiles : List FileRow) (profiles : List ProfileRow) : Option (List GMsg) :=
  match selectedGroupId with
  | some g =>
    some (((gmsgs.filter (fun m => m.group_id == g)).map (fun m =>
      { m with
        files := viewsFor gfiles m.id
        sender := senderNameOf profiles m.sender_id })).insertionSort gCreatedLe)
  | none => none

/-- The enrichment `handleNewMessage` performs on a pushed row: attach the
sender profile, and the `group_files` rows when it is a file message. -/
def enrichIncoming (profiles : List ProfileRow) (gfiles : List FileRow)
    (message : GMsg) : GMsg :=
  let m1 := { message with sender := senderNameOf profiles message.sender_id }
  if m1.message_type == "file" then { m1 with files := viewsFor gfiles m1.id }
  else m1

/-- Function `handleNewMessage` from `GroupChatWindow`: enrich the pushed row with its
sender profile (and its `group_files` rows when it is a file message), then
append it unless a message with the same id is already in the list. -/
def handleNewMessage (profiles : List ProfileRow) (gfiles : List FileRow)
    (prev : List GMsg) (message : GMsg) : List GMsg :=
  if prev.any (fun x => x.id == (enrichIncoming profiles gfiles message).id) then prev
  else prev ++ [enrichIncoming profiles gfiles message]

/-- The group change-feed step: the subscription is created with the filter
`group_id=eq.selectedGroupId` (and only when a group is open and a user is
signed in), so `handleNewMessage` runs exactly for pushed rows of the open
group. -/
def groupIncoming (selectedGroupId user : Option String)
    (profiles : List ProfileRow) (gfiles : List FileRow) (prev : List GMsg)
    (message : GMsg) : List GMsg :=
  match selectedGroupId, user with
  | some g, some _ =>
    if message.group_id == g then handleNewMessage profiles gfiles prev message
    else prev
  | _, _ => prev

/-- The `messageData` object inserted into the `group_messages` table. -/
structure GroupMsgPayload where
  group_id : String
  sender_id : String
  content : String
  message_type : String
deriving DecidableEq, Repr

/-- Observable outcome of one run of `GroupChatWindow.sendMessage`. -/
structure GroupSendResult where
  attempted : Option GroupMsgPayload
  fileInsert : Option FilePayload
  alerted : Bool
  draftAfter : String
  fileAfter : Option FileInfo
deriving DecidableEq, Repr

/-- Function `sendMessage` from `GroupChatWindow`: same structure as the 1:1 send,
with the payload scoped to the open group (and no `read` column). -/
def sendMessage (user selectedGroupId : Option String) (newMessage : String)
    (selectedFile : Option FileInfo) (uploadResult : Option String)
    (insertResult : Option String) : GroupSendResult :=
  match user, selectedGroupId with
  | some uid, some g =>
    if trimEmpty newMessage = true ∧ selectedFile = none then
      ⟨none, none, false, newMessage, selectedFile⟩
    else
      match selectedFile with
      | some f =>
        match uploadResult with
        | none => ⟨none, none, true, newMessage, selectedFile⟩
        | some url =>
          let payload : GroupMsgPayload := ⟨g, uid, f.name, "file"⟩
          match insertResult with
          | none => ⟨some payload, none, true, newMessage, selectedFile⟩
          | some msgId =>
            ⟨some payload,
              if url ≠ "" then some ⟨msgId, f.name, f.ftype, f.size, url⟩ else none,
              false, "", none⟩
      | none =>
        let payload : GroupMsgPayload := ⟨g, uid, newMessage, "text"⟩
        match insertResult with
        | none => ⟨some payload, none, true, newMessage, selectedFile⟩
        | some _ => ⟨some payload, none, false, "", none⟩
  | _, _ => ⟨none, none, false, newMessage, selectedFile⟩

end GroupChatWindow

namespace AuthContext

/-- A presence record written to the realtime key-value store at
`users/{uid}/status`: the `lastSeen` field is the literal
`serverTimestamp()` placeholder, recorded here as a flag. -/
structure StatusWrite where
  online : Bool
  lastSeenIsServerTimestamp : Bool
deriving DecidableEq, Repr

/-- The update issued to the `profiles` row: `online_status` plus a
client-clock `last_seen` (`new Date().toISOString()`). -/
structure ProfilesStatusUpdate where
  online_status : Bool
  lastSeenIsClientTime : Bool
deriving DecidableEq, Repr

/-- Everything `updateUserStatus` does, in order: the realtime-store write,
the `onDisconnect` handler registered (if any), and the relational-store
mirror update. -/
structure PresenceEffects where
  rtdbPath : String
  rtdbWrite : StatusWrite
  onDisconnectWrite : Option StatusWrite
  profileRowId : String
  profileUpdate : ProfilesStatusUpdate
deriving DecidableEq, Repr

/-- Function `updateUserStatus` from `AuthContext`: write the status marker with a
server timestamp, register the automatic offline write only when going
online, and mirror the status into the `profiles` table. -/
def updateUserStatus (userId : String) (online : Bool) : PresenceEffects :=
  { rtdbPath := "users/" ++ userId ++ "/status"
    rtdbWrite := { online := online, lastSeenIsServerTimestamp := true }
    onDisconnectWrite :=
      if online then some { online := false, lastSeenIsServerTimestamp := true }
      else none
    profileRowId := userId
    profileUpdate := { online_status := online, lastSeenIsClientTime := true } }

/-- The presence part of the `onAuthStateChanged` handler in `AuthProvider`:
whenever a signed-in user is reported, `updateUserStatus(uid, true)` runs;
with no user, no presence write happens. -/
def authStateEffects (user : Option String) : Option PresenceEffects :=
  user.map (fun uid => updateUserStatus uid true)

end AuthContext

namespace GroupDetails

/-- A `group_members` row as `GroupDetails` holds it (profile enrichment
omitted: the handlers read only `id`, `user_id` and `role`). -/
structure Member where
  id : String
  user_id : String
  role : String
deriving DecidableEq, Repr

/-- The count `members.filter(m => m.role === admin).length` that both
guards compute. -/
def adminCount (members : List Member) : Nat :=
  (members.filter (fun m => m.role == "admin")).length

/-- What a membership handler ends up doing: nothing (the confirm dialog was
declined), an alert with no store mutation (the guard fired), a
`delete().eq(id, memberId)`, or an `update({role}).eq(id, memberId)`. -/
inductive MemberAction where
  | cancelled : MemberAction
  | blockedAlert : MemberAction
  | deleteRow : String → MemberAction
  | updateRole : String → String → MemberAction
deriving DecidableEq, Repr

/-- Function `handleRemoveMember` from `GroupDetails`: after the confirm dialog, the
guard blocks only when the member being removed is the current user
(`memberUserId === user?.uid`) and the admin count is exactly one; otherwise
the delete is issued. -/
def handleRemoveMember (confirmed : Bool) (members : List Member)
    (user : Option String) (memberId memberUserId : String) : MemberAction :=
  if confirmed = false then .cancelled
  else if user = some memberUserId ∧ adminCount members = 1 then .blockedAlert
  else .deleteRow memberId

/-- Function `handleToggleRole` from `GroupDetails`: the role flips between admin and
member; the guard blocks only a demotion of the current user themselves
(`memberUserId === user?.uid`) when the admin count is exactly one. -/
def handleToggleRole (members : List Member) (user : Option String)
    (memberId currentRole memberUserId : String) : MemberAction :=
  let newRole := if currentRole == "admin" then "member" else "admin"
  if newRole == "member" ∧ user = some memberUserId ∧ adminCount members = 1 then
    .blockedAlert
  else .updateRole memberId newRole

/-- Effect of a handler outcome on the `group_members` rows of the group. -/
def applyMemberAction (members : List Member) : MemberAction → List Member
  | .cancelled => members
  | .blockedAlert => members
  | .deleteRow mid => members.filter (fun m => m.id != mid)
  | .updateRole mid r => members.map (fun m => if m.id == mid then { m with role := r } else m)

end GroupDetails

/-- Model of `String.prototype.localeCompare` used as the final tiebreak of
the contact-list comparator: sign of the lexicographic comparison. -/
def strCmp (a b : String) : Int :=
  if a < b then -1 else if a = b then 0 else 1

/-- Strict lexicographic order on the first three comparator keys
(unread class, has-last-message class, negated last-message time). -/
def tripleLt (a b : Nat × Nat × Int) : Prop :=
  a.1 < b.1 ∨ (a.1 = b.1 ∧ (a.2.1 < b.2.1 ∨ (a.2.1 = b.2.1 ∧ a.2.2 < b.2.2)))

/-- Lexicographic ≤ on a full comparator key: strictly smaller on the first
three components, or equal there and ≤ on the final tiebreak. -/
def lexKeyLe {γ : Type} [LinearOrder γ] (a b : Nat × Nat × Int × γ) : Prop :=
  tripleLt (a.1, a.2.1, a.2.2.1) (b.1, b.2.1, b.2.2.1) ∨
    ((a.1, a.2.1, a.2.2.1) = (b.1, b.2.1, b.2.2.1) ∧ a.2.2.2 ≤ b.2.2.2)

/-- The last message annotated onto a contact or group row. -/
structure LastMessage where
  content : String
  created_at : Int
  sender_id : String
  message_type : String
deriving DecidableEq, Repr

namespace UserList

/-- A `UserWithMessages` entry: a profile annotated with its unread count
and most-recent conversation message. -/
structure UserEntry where
  id : String
  display_name : String
  online_status : Bool
  unreadCount : Nat
  lastMessage : Option LastMessage
deriving DecidableEq, Repr

/-- The unread-count query of `loadUsers`:
`count messages where sender_id = pid, receiver_id = uid, read = false`. -/
def userUnread (uid pid : String) (msgs : List Msg) : Nat :=
  (msgs.filter (fun m => m.sender_id == pid && m.receiver_id == uid && m.read == false)).length

/-- Descending `created_at` order used by the last-message queries. -/
def createdDesc (a b : Msg) : Prop := b.created_at ≤ a.created_at

instance : DecidableRel createdDesc := fun a b => by
  unfold createdDesc; infer_instance

/-- The last-message query of `loadUsers`: conversation rows ordered
descending by `created_at`, limit 1. -/
def lastDirectMessage (uid pid : String) (msgs : List Msg) : Option LastMessage :=
  (((msgs.filter (ChatWindow.conversationFilter uid pid)).insertionSort createdDesc).head?).map
    (fun m => ⟨m.content, m.created_at, m.sender_id, m.message_type⟩)

/-- One annotated row of the contact list. -/
def annotateUser (uid : String) (msgs : List Msg) (p : ProfileRow) : UserEntry :=
  ⟨p.id, p.display_name, p.online_status, userUnread uid p.id msgs,
    lastDirectMessage uid p.id msgs⟩

/-- The contact-list comparator (lines 127-138 of `UserList`): unread
entries first, then later last message first, then display name. -/
def compareUsers (a b : UserEntry) : Int :=
  if a.unreadCount > 0 ∧ b.unreadCount = 0 then -1
  else if a.unreadCount = 0 ∧ b.unreadCount > 0 then 1
  else match a.lastMessage, b.lastMessage with
  | some x, some y => y.created_at - x.created_at
  | some _, none => -1
  | none, some _ => 1
  | none, none => strCmp a.display_name b.display_name

/-- Whether `a` may be placed before `b` by `Array.prototype.sort`. -/
def userLe (a b : UserEntry) : Prop := compareUsers a b ≤ 0

instance : DecidableRel userLe := fun a b => by
  unfold userLe; infer_instance

/-- The `usersWithMessages.sort(...)` call. -/
def sortUsers (l : List UserEntry) : List UserEntry := l.insertionSort userLe

/-- Alphabetical profile order requested by
`.order(display_name, ascending: true)`. -/
def nameAsc (p q : ProfileRow) : Prop := p.display_name ≤ q.display_name

instance : DecidableRel nameAsc := fun a b => by
  unfold nameAsc; infer_instance

/-- Function `loadUsers`: every other profile, annotated with unread count and last
message, then sorted by the comparator. `none` models the signed-out guard. -/
def loadUsers (user : Option String) (profiles : List ProfileRow)
    (msgs : List Msg) : Option (List UserEntry) :=
  user.map (fun uid =>
    sortUsers (((profiles.filter (fun p => p.id != uid)).insertionSort nameAsc).map
      (annotateUser uid msgs)))

/-- The comparator key of a contact entry: unread class, has-message class,
negated last-message time, then the display name (consulted only when no
last message exists). -/
def uKey (e : UserEntry) : Nat × Nat × Int × String :=
  (if 0 < e.unreadCount then 0 else 1,
   if e.lastMessage.isSome then 0 else 1,
   (match e.lastMessage with
    | some x => -x.created_at
    | none => 0),
   (match e.lastMessage with
    | some _ => ""
    | none => e.display_name))

/-- The `created_at` of the annotated last message (0 when there is none). -/
def timeOfLast (e : UserEntry) : Int :=
  (e.lastMessage.map (fun x => x.created_at)).getD 0

/-- The ordering stated by the specification: among entries that both carry
a most-recent message, the one with the later message comes earlier. -/
def recencySorted (l : List UserEntry) : Prop :=
  l.Pairwise (fun a b =>
    a.lastMessage.isSome = true → b.lastMessage.isSome = true →
      timeOfLast b ≤ timeOfLast a)

/-- The order the comparator actually enforces between an earlier and a
later rendered entry: no read entry precedes an unread one, and within the
same unread class recency decides when both entries carry a last message. -/
def unreadThenRecency (a b : UserEntry) : Prop :=
  ¬ (a.unreadCount = 0 ∧ 0 < b.unreadCount) ∧
  ((0 < a.unreadCount ↔ 0 < b.unreadCount) →
    ∀ x y, a.lastMessage = some x → b.lastMessage = some y →
      y.created_at ≤ x.created_at)

end UserList

namespace GroupList

/-- A `GroupWithMessages` entry: a group annotated with member count,
unread count and most-recent group message. -/
structure GroupEntry where
  id : String
  name : String
  created_at : Int
  member_count : Nat
  unreadCount : Nat
  lastMessage : Option LastMessage
deriving DecidableEq, Repr

/-- A `group_members` row as the list view reads it. -/
structure GroupMemberRow where
  group_id : String
  user_id : String
  role : String
  last_read_at : Option Int
deriving DecidableEq, Repr

/-- A `groups` row. -/
structure GroupRow where
  id : String
  name : String
  description : String
  created_by : String
  created_at : Int
deriving DecidableEq, Repr

/-- The `last_read_at` of the current user's membership row, as fetched by
`select(last_read_at).eq(group_id, gid).eq(user_id, uid).single()` followed
by the truthiness check on the value. -/
def lastReadOf (membersTable : List GroupMemberRow) (gid uid : String) : Option Int :=
  (membersTable.find? (fun r => r.group_id == gid && r.user_id == uid)).bind
    (fun r => r.last_read_at)

/-- The unread-count queries of `loadGroups`: group messages from other
senders strictly newer than `last_read_at`, or all of them when
`last_read_at` is null. -/
def groupUnread (uid gid : String) (lastRead : Option Int)
    (gmsgs : List GroupChatWindow.GMsg) : Nat :=
  match lastRead with
  | some t =>
    (gmsgs.filter (fun m => m.group_id == gid && m.sender_id != uid && t < m.created_at)).length
  | none =>
    (gmsgs.filter (fun m => m.group_id == gid && m.sender_id != uid)).length

/-- Descending `created_at` order on group messages. -/
def gCreatedDesc (a b : GroupChatWindow.GMsg) : Prop := b.created_at ≤ a.created_at

instance : DecidableRel gCreatedDesc := fun a b => by
  unfold gCreatedDesc; infer_instance

/-- The last-message query of `loadGroups`: rows of the group ordered
descending by `created_at`, limit 1. -/
def lastGroupMessage (gid : String) (gmsgs : List GroupChatWindow.GMsg) :
    Option LastMessage :=
  (((gmsgs.filter (fun m => m.group_id == gid)).insertionSort gCreatedDesc).head?).map
    (fun m => ⟨m.content, m.created_at, m.sender_id, m.message_type⟩)

/-- One annotated row of the group list. -/
def annotateGroup (uid : String) (membersTable : List GroupMemberRow)
    (gmsgs : List GroupChatWindow.GMsg) (g : GroupRow) : GroupEntry :=
  ⟨g.id, g.name, g.created_at,
    (membersTable.filter (fun r => r.group_id == g.id)).length,
    groupUnread uid g.id (lastReadOf membersTable g.id uid) gmsgs,
    lastGroupMessage g.id gmsgs⟩

/-- The group-list comparator (lines 208-219 of `GroupList`): unread groups
first, then later last message first, then later creation first. -/
def compareGroups (a b : GroupEntry) : Int :=
  if a.unreadCount > 0 ∧ b.unreadCount = 0 then -1
  else if a.unreadCount = 0 ∧ b.unreadCount > 0 then 1
  else match a.lastMessage, b.lastMessage with
  | some x, some y => y.created_at - x.created_at
  | some _, none => -1
  | none, some _ => 1
  | none, none => b.created_at - a.created_at

/-- Whether `a` may be placed before `b` by `Array.prototype.sort`. -/
def groupLe (a b : GroupEntry) : Prop := compareGroups a b ≤ 0

instance : DecidableRel groupLe := fun a b => by
  unfold groupLe; infer_instance

/-- The `groupsWithData.sort(...)` call. -/
def sortGroups (l : List GroupEntry) : List GroupEntry := l.insertionSort groupLe

/-- Function `loadGroups`: the groups the user belongs to, annotated, then sorted by
the comparator. `none` models the signed-out guard. -/
def loadGroups (user : Option String) (groupsTable : List GroupRow)
    (membersTable : List GroupMemberRow) (gmsgs : List GroupChatWindow.GMsg) :
    Option (List GroupEntry) :=
  user.map (fun uid =>
    let gids := ((membersTable.filter (fun r => r.user_id == uid)).map
      (fun r => r.group_id))
    sortGroups ((groupsTable.filter (fun g => gids.contains g.id)).map
      (annotateGroup uid membersTable gmsgs)))

/-- The comparator key of a group entry: unread class, has-message class,
negated last-message time, then the negated group creation time (consulted
only when no last message exists). -/
def gKey (e : GroupEntry) : Nat × Nat × Int × Int :=
  (if 0 < e.unreadCount then 0 else 1,
   if e.lastMessage.isSome then 0 else 1,
   (match e.lastMessage with
    | some x => -x.created_at
    | none => 0),
   (match e.lastMessage with
    | some _ => 0
    | none => -e.created_at))

/-- The order the group comparator actually enforces between an earlier and
a later rendered entry. -/
def unreadThenRecencyG (a b : GroupEntry) : Prop :=
  ¬ (a.unreadCount = 0 ∧ 0 < b.unreadCount) ∧
  ((0 < a.unreadCount ↔ 0 < b.unreadCount) →
    ∀ x y, a.lastMessage = some x → b.lastMessage = some y →
      y.created_at ≤ x.created_at)

end GroupList

end Chathola

namespace Chathola

/-- C2: the mark-as-read update touches exactly the rows whose sender is the
selected peer, whose receiver is the current user and whose boolean `read`
flag is false, setting `read := true` there; every other row is returned
unchanged (the table keeps its length and order). -/
theorem c2_mark_read_frame (sel uid : String) (table : List Msg) (i : Nat) :
    (ChatWindow.markMessagesAsRead (some sel) (some uid) table)[i]? =
      (table[i]?).map (ChatWindow.markReadRow sel uid) ∧
    (∀ m : Msg, (m.sender_id = sel ∧ m.receiver_id = uid ∧ m.read = false) →
      ChatWindow.markReadRow sel uid m = { m with read := true }) ∧
    (∀ m : Msg, ¬ (m.sender_id = sel ∧ m.receiver_id = uid ∧ m.read = false) →
      ChatWindow.markReadRow sel uid m = m) := by
  refine ⟨?_, ?_, ?_⟩
  · simp [ChatWindow.markMessagesAsRead]
  · intro m hm
    simp [ChatWindow.markReadRow, hm]
  · intro m hm
    simp [ChatWindow.markReadRow, hm]

/-- Witness for C2 at a concrete table: an unread row from the selected
peer to the user is set to read; a row in the other direction is untouched. -/
theorem c2_mark_read_frame_witness :
    ChatWindow.markReadRow "alice" "bob" ⟨"m1", "alice", "bob", "hi", "text", false, 1, []⟩ =
      ⟨"m1", "alice", "bob", "hi", "text", true, 1, []⟩ ∧
    ChatWindow.markReadRow "alice" "bob" ⟨"m2", "bob", "alice", "yo", "text", false, 2, []⟩ =
      ⟨"m2", "bob", "alice", "yo", "text", false, 2, []⟩ := by
  constructor
  · exact (c2_mark_read_frame "alice" "bob" [] 0).2.1
      ⟨"m1", "alice", "bob", "hi", "text", false, 1, []⟩ (by decide)
  · exact (c2_mark_read_frame "alice" "bob" [] 0).2.2
      ⟨"m2", "bob", "alice", "yo", "text", false, 2, []⟩ (by decide)

/-- C1 counterexample: in a group whose member list contains exactly one
admin, a removal (or demotion) of that sole admin issued while the current
user is someone else is NOT blocked: the delete/update mutation is issued
and the membership rows change. -/
theorem c1_counterexample :
    GroupDetails.adminCount [⟨"m1", "alice", "admin"⟩] = 1 ∧
    GroupDetails.handleRemoveMember true [⟨"m1", "alice", "admin"⟩] (some "bob")
        "m1" "alice" = GroupDetails.MemberAction.deleteRow "m1" ∧
    GroupDetails.applyMemberAction [⟨"m1", "alice", "admin"⟩]
        (GroupDetails.handleRemoveMember true [⟨"m1", "alice", "admin"⟩] (some "bob")
          "m1" "alice") = [] ∧
    GroupDetails.handleToggleRole [⟨"m1", "alice", "admin"⟩] (some "bob")
        "m1" "admin" "alice" = GroupDetails.MemberAction.updateRole "m1" "member" := by
  decide

/-- C1 (amended): the guard protects self-removal and self-demotion: when
the admin count is exactly one and the member being removed or demoted is
the current user, both handlers stop at the alert and the membership rows
are unchanged. -/
theorem c1_last_admin_self_guard (members : List GroupDetails.Member)
    (uid memberId memberUserId : String)
    (hadmin : GroupDetails.adminCount members = 1) (hself : memberUserId = uid) :
    GroupDetails.handleRemoveMember true members (some uid) memberId memberUserId =
      GroupDetails.MemberAction.blockedAlert ∧
    GroupDetails.handleToggleRole members (some uid) memberId "admin" memberUserId =
      GroupDetails.MemberAction.blockedAlert ∧
    GroupDetails.applyMemberAction members GroupDetails.MemberAction.blockedAlert =
      members := by
  subst hself
  refine ⟨?_, ?_, rfl⟩
  · simp [GroupDetails.handleRemoveMember, hadmin]
  · simp [GroupDetails.handleToggleRole, hadmin]

/-- Witness for the amended C1: the sole admin removing themselves is
blocked. -/
theorem c1_last_admin_self_guard_witness :
    GroupDetails.handleRemoveMember true [⟨"m1", "alice", "admin"⟩] (some "alice")
        "m1" "alice" = GroupDetails.MemberAction.blockedAlert ∧
    GroupDetails.handleToggleRole [⟨"m1", "alice", "admin"⟩] (some "alice")
        "m1" "admin" "alice" = GroupDetails.MemberAction.blockedAlert := by
  have h := c1_last_admin_self_guard [⟨"m1", "alice", "admin"⟩] "alice" "m1" "alice"
    (by decide) rfl
  exact ⟨h.1, h.2.1⟩

/-- C5: on sign-in the presence adapter writes the online marker with a
server timestamp, registers the automatic offline write (and registers it
only when going online, never when going offline), and mirrors the same
status into the `profiles` row. -/
theorem c5_presence_effects (uid : String) :
    AuthContext.authStateEffects (some uid) = some (AuthContext.updateUserStatus uid true) ∧
    (AuthContext.updateUserStatus uid true).rtdbWrite =
      { online := true, lastSeenIsServerTimestamp := true } ∧
    (AuthContext.updateUserStatus uid true).onDisconnectWrite =
      some { online := false, lastSeenIsServerTimestamp := true } ∧
    (AuthContext.updateUserStatus uid false).onDisconnectWrite = none ∧
    (∀ b, (AuthContext.updateUserStatus uid b).rtdbWrite.online = b ∧
      (AuthContext.updateUserStatus uid b).profileUpdate.online_status = b ∧
      (AuthContext.updateUserStatus uid b).profileRowId = uid ∧
      (AuthContext.updateUserStatus uid b).rtdbPath = "users/" ++ uid ++ "/status") := by
  refine ⟨rfl, rfl, rfl, rfl, fun b => ⟨?_, ?_, rfl, rfl⟩⟩ <;>
    cases b <;> rfl

/-- C9 counterexample: an oversized file triggers the alert but leaves the
previously selected attachment in place, so the pending attachment is not
unset. -/
theorem c9_counterexample :
    handleFileSelect (some ⟨"old.png", "image/png", 100⟩)
        (some ⟨"big.zip", "application/zip", 500 * 1024 * 1024 + 1⟩) =
      (some ⟨"old.png", "image/png", 100⟩, true) ∧
    some (⟨"old.png", "image/png", 100⟩ : FileInfo) ≠ none := by
  decide

/-- C9 (amended): a chosen file becomes the pending attachment exactly when
its size is at most 500 * 1024 * 1024 bytes; a strictly larger file
triggers the alert and leaves the pending attachment unchanged (hence
still unset when none was pending). -/
theorem c9_size_guard (prev : Option FileInfo) (f : FileInfo) :
    (f.size ≤ 500 * 1024 * 1024 → handleFileSelect prev (some f) = (some f, false)) ∧
    (500 * 1024 * 1024 < f.size → handleFileSelect prev (some f) = (prev, true)) := by
  constructor <;> intro h <;> simp only [handleFileSelect]
  · rw [if_neg (by omega)]
  · rw [if_pos (by omega)]

/-- Witness for the amended C9. -/
theorem c9_size_guard_witness :
    handleFileSelect none (some ⟨"a.png", "image/png", 10⟩) =
      (some ⟨"a.png", "image/png", 10⟩, false) ∧
    handleFileSelect none (some ⟨"b.zip", "application/zip", 500 * 1024 * 1024 + 1⟩) =
      (none, true) := by
  exact ⟨(c9_size_guard none ⟨"a.png", "image/png", 10⟩).1 (by decide),
    (c9_size_guard none ⟨"b.zip", "application/zip", 500 * 1024 * 1024 + 1⟩).2 (by decide)⟩

lemma dedupAppend_of_mem (prev : List Msg) (m : Msg)
    (h : m.id ∈ prev.map (fun x => x.id)) : ChatWindow.dedupAppend prev m = prev := by
  unfold ChatWindow.dedupAppend
  rw [if_pos]
  rw [List.any_eq_true]
  obtain ⟨x, hx, hid⟩ := List.mem_map.mp h
  exact ⟨x, hx, by rw [beq_iff_eq, hid]⟩

lemma dedupAppend_ids_nodup (prev : List Msg) (m : Msg)
    (h : (prev.map (fun x => x.id)).Nodup) :
    ((ChatWindow.dedupAppend prev m).map (fun x => x.id)).Nodup := by
  unfold ChatWindow.dedupAppend
  by_cases hc : prev.any (fun x => x.id == m.id) = true
  · rw [if_pos hc]; exact h
  · rw [if_neg hc, List.map_append]
    refine List.Nodup.append h (List.nodup_singleton _) ?_
    intro a ha hb
    simp only [List.map_cons, List.map_nil, List.mem_singleton] at hb
    subst hb
    rw [List.any_eq_true] at hc
    obtain ⟨x, hx, hid⟩ := List.mem_map.mp ha
    exact hc ⟨x, hx, by rw [beq_iff_eq, hid]⟩

lemma enrichIncoming_id (profiles : List ProfileRow) (gfiles : List FileRow)
    (message : GroupChatWindow.GMsg) :
    (GroupChatWindow.enrichIncoming profiles gfiles message).id = message.id := by
  unfold GroupChatWindow.enrichIncoming
  dsimp only
  split <;> rfl

/-- C10: the dedup-append of the change-feed handlers is idempotent on ids:
a pushed message whose id is already in the local list leaves the list
unchanged (in both the 1:1 and the group handler), and any sequence of
pushes preserves pairwise-distinct message ids. -/
theorem c10_dedup_idempotent :
    (∀ (prev : List Msg) (m : Msg), m.id ∈ prev.map (fun x => x.id) →
      ChatWindow.dedupAppend prev m = prev) ∧
    (∀ (prev pushes : List Msg), (prev.map (fun x => x.id)).Nodup →
      ((pushes.foldl ChatWindow.dedupAppend prev).map (fun x => x.id)).Nodup) ∧
    (∀ (profiles : List ProfileRow) (gfiles : List FileRow)
        (prev : List GroupChatWindow.GMsg) (message : GroupChatWindow.GMsg),
      message.id ∈ prev.map (fun x => x.id) →
      GroupChatWindow.handleNewMessage profiles gfiles prev message = prev) := by
  refine ⟨dedupAppend_of_mem, ?_, ?_⟩
  · intro prev pushes
    induction pushes generalizing prev with
    | nil => exact fun h => h
    | cons p ps ih => exact fun h => ih _ (dedupAppend_ids_nodup _ _ h)
  · intro profiles gfiles prev message h
    unfold GroupChatWindow.handleNewMessage
    rw [if_pos]
    rw [List.any_eq_true]
    obtain ⟨x, hx, hid⟩ := List.mem_map.mp h
    exact ⟨x, hx, by rw [beq_iff_eq, enrichIncoming_id, hid]⟩

/-- Witness for C10: pushing an already-present message twice leaves the
singleton list unchanged with its ids still distinct. -/
theorem c10_dedup_idempotent_witness :
    ChatWindow.dedupAppend [⟨"m1", "a", "b", "hi", "text", false, 1, []⟩]
        ⟨"m1", "a", "b", "hi", "text", false, 1, []⟩ =
      [⟨"m1", "a", "b", "hi", "text", false, 1, []⟩] ∧
    ((([⟨"m1", "a", "b", "hi", "text", false, 1, []⟩] : List Msg).foldl
        ChatWindow.dedupAppend
        [⟨"m1", "a", "b", "hi", "text", false, 1, []⟩]).map (fun x => x.id)).Nodup := by
  exact ⟨c10_dedup_idempotent.1 _ _ (by decide),
    c10_dedup_idempotent.2.1 _ _ (by decide)⟩

/-- C4: every insert payload produced by `sendMessage` (1:1 and group)
carries the authenticated user's id as `sender_id`, and no insert is
attempted when no user is signed in or when both the trimmed draft and the
selected file are empty. -/
theorem c4_sender_identity (user sel : Option String) (draft : String)
    (file : Option FileInfo) (upl ins : Option String) :
    (∀ p, (ChatWindow.sendMessage user sel draft file upl ins).attempted = some p →
      user = some p.sender_id) ∧
    ((user = none ∨ (trimEmpty draft = true ∧ file = none)) →
      (ChatWindow.sendMessage user sel draft file upl ins).attempted = none) ∧
    (∀ q, (GroupChatWindow.sendMessage user sel draft file upl ins).attempted = some q →
      user = some q.sender_id) ∧
    ((user = none ∨ (trimEmpty draft = true ∧ file = none)) →
      (GroupChatWindow.sendMessage user sel draft file upl ins).attempted = none) := by
  cases user with
  | none => simp [ChatWindow.sendMessage, GroupChatWindow.sendMessage]
  | some uid =>
    cases sel with
    | none => simp [ChatWindow.sendMessage, GroupChatWindow.sendMessage]
    | some s =>
      by_cases hg : trimEmpty draft = true ∧ file = none
      · simp [ChatWindow.sendMessage, GroupChatWindow.sendMessage, hg]
      · cases file with
        | none =>
          cases ins <;> simp_all [ChatWindow.sendMessage, GroupChatWindow.sendMessage]
        | some f =>
          cases upl with
          | none =>
            simp_all [ChatWindow.sendMessage, GroupChatWindow.sendMessage]
          | some url =>
            cases ins <;> simp_all [ChatWindow.sendMessage, GroupChatWindow.sendMessage]

/-- Witness for C4: a successful text send inserts with the signed-in
sender; a signed-out run attempts nothing. -/
theorem c4_sender_identity_witness :
    (some "u" : Option String) = some
      ((⟨"u", "s", "hi", "text", false⟩ : ChatWindow.MsgPayload).sender_id) ∧
    (ChatWindow.sendMessage none (some "s") "hi" none none (some "m1")).attempted =
      none := by
  constructor
  · exact (c4_sender_identity (some "u") (some "s") "hi" none none (some "m1")).1
      ⟨"u", "s", "hi", "text", false⟩ (by decide)
  · exact (c4_sender_identity none (some "s") "hi" none none (some "m1")).2.1
      (Or.inl rfl)

/-- C8: in both conversation views, a run that passes the composer guard
and hits a rejected upload or a failed insert raises the alert; whenever
the alert fires the draft text and the selected file keep their values
from before the attempt, and the composer is cleared only by a successful
run. -/
theorem c8_failure_keeps_composer (uid s draft : String) (file : Option FileInfo)
    (upl ins : Option String) :
    ((ChatWindow.sendMessage (some uid) (some s) draft file upl ins).alerted = true →
      (ChatWindow.sendMessage (some uid) (some s) draft file upl ins).draftAfter = draft ∧
      (ChatWindow.sendMessage (some uid) (some s) draft file upl ins).fileAfter = file) ∧
    (¬ (trimEmpty draft = true ∧ file = none) →
      ((file ≠ none ∧ upl = none) ∨ ins = none) →
      (ChatWindow.sendMessage (some uid) (some s) draft file upl ins).alerted = true) ∧
    (((ChatWindow.sendMessage (some uid) (some s) draft file upl ins).draftAfter ≠ draft ∨
        (ChatWindow.sendMessage (some uid) (some s) draft file upl ins).fileAfter ≠ file) →
      (ChatWindow.sendMessage (some uid) (some s) draft file upl ins).alerted = false ∧
      (ChatWindow.sendMessage (some uid) (some s) draft file upl ins).draftAfter = "" ∧
      (ChatWindow.sendMessage (some uid) (some s) draft file upl ins).fileAfter = none) ∧
    ((GroupChatWindow.sendMessage (some uid) (some s) draft file upl ins).alerted = true →
      (GroupChatWindow.sendMessage (some uid) (some s) draft file upl ins).draftAfter = draft ∧
      (GroupChatWindow.sendMessage (some uid) (some s) draft file upl ins).fileAfter = file) ∧
    (¬ (trimEmpty draft = true ∧ file = none) →
      ((file ≠ none ∧ upl = none) ∨ ins = none) →
      (GroupChatWindow.sendMessage (some uid) (some s) draft file upl ins).alerted = true) ∧
    (((GroupChatWindow.sendMessage (some uid) (some s) draft file upl ins).draftAfter ≠ draft ∨
        (GroupChatWindow.sendMessage (some uid) (some s) draft file upl ins).fileAfter ≠ file) →
      (GroupChatWindow.sendMessage (some uid) (some s) draft file upl ins).alerted = false ∧
      (GroupChatWindow.sendMessage (some uid) (some s) draft file upl ins).draftAfter = "" ∧
      (GroupChatWindow.sendMessage (some uid) (some s) draft file upl ins).fileAfter = none) := by
  by_cases hg : trimEmpty draft = true ∧ file = none
  · simp [ChatWindow.sendMessage, GroupChatWindow.sendMessage, hg]
  · cases file with
    | none =>
      cases ins <;> simp_all [ChatWindow.sendMessage, GroupChatWindow.sendMessage]
    | some f =>
      cases upl with
      | none => simp_all [ChatWindow.sendMessage, GroupChatWindow.sendMessage]
      | some url =>
        cases ins <;> simp_all [ChatWindow.sendMessage, GroupChatWindow.sendMessage]

/-- Witness for C8: a failed insert of a text message alerts and keeps the
draft in both views. -/
theorem c8_failure_keeps_composer_witness :
    (ChatWindow.sendMessage (some "u") (some "s") "hi" none none none).alerted = true ∧
    (ChatWindow.sendMessage (some "u") (some "s") "hi" none none none).draftAfter = "hi" ∧
    (GroupChatWindow.sendMessage (some "u") (some "s") "hi" none none none).draftAfter =
      "hi" := by
  have h := c8_failure_keeps_composer "u" "s" "hi" none none none
  have ha := h.2.1 (by decide) (Or.inr rfl)
  have hga := h.2.2.2.2.1 (by decide) (Or.inr rfl)
  exact ⟨ha, (h.1 ha).1, (h.2.2.2.1 hga).1⟩

/-- C6: in both conversation views, every loaded history is ordered
ascending by `created_at` with each row carrying exactly its joined file
attachments, and every change-feed push that belongs to the open
conversation and is not yet in the local list is appended at its end. -/
theorem c6_load_order_and_append (uid sel g : String) (msgs : List Msg)
    (files gfiles : List FileRow) (profiles : List ProfileRow)
    (gmsgs : List GroupChatWindow.GMsg) (prev : List Msg)
    (gprev : List GroupChatWindow.GMsg) (m : Msg) (gm : GroupChatWindow.GMsg) :
    (∀ l, ChatWindow.loadMessages (some sel) (some uid) msgs files = some l →
      l.Pairwise ChatWindow.createdLe ∧ ∀ x ∈ l, x.files = viewsFor files x.id) ∧
    (∀ l, GroupChatWindow.loadMessages (some g) gmsgs gfiles profiles = some l →
      l.Pairwise GroupChatWindow.gCreatedLe ∧ ∀ x ∈ l, x.files = viewsFor gfiles x.id) ∧
    (((m.sender_id == sel && m.receiver_id == uid) ||
        (m.sender_id == uid && m.receiver_id == sel)) = true →
      (∀ x ∈ prev, x.id ≠ m.id) →
      ChatWindow.chatIncoming (some sel) (some uid) files prev m =
        prev ++ [if m.message_type == "file" then ChatWindow.attachFiles files m else m]) ∧
    (gm.group_id = g → (∀ x ∈ gprev, x.id ≠ gm.id) →
      GroupChatWindow.groupIncoming (some g) (some uid) profiles gfiles gprev gm =
        gprev ++ [GroupChatWindow.enrichIncoming profiles gfiles gm]) := by
  refine ⟨?_, ?_, ?_, ?_⟩
  · intro l hl
    simp only [ChatWindow.loadMessages, Option.some.injEq] at hl
    subst hl
    constructor
    · exact List.sorted_insertionSort ChatWindow.createdLe _
    · intro x hx
      have hx2 := (List.perm_insertionSort ChatWindow.createdLe _).mem_iff.mp hx
      obtain ⟨m0, _, rfl⟩ := List.mem_map.mp hx2
      rfl
  · intro l hl
    simp only [GroupChatWindow.loadMessages, Option.some.injEq] at hl
    subst hl
    constructor
    · exact List.sorted_insertionSort GroupChatWindow.gCreatedLe _
    · intro x hx
      have hx2 := (List.perm_insertionSort GroupChatWindow.gCreatedLe _).mem_iff.mp hx
      obtain ⟨m0, _, rfl⟩ := List.mem_map.mp hx2
      rfl
  · intro hb hfresh
    have hmid : (if m.message_type == "file" then ChatWindow.attachFiles files m else m).id =
        m.id := by
      split <;> rfl
    simp only [ChatWindow.chatIncoming]
    rw [if_pos hb]
    unfold ChatWindow.dedupAppend
    rw [if_neg]
    intro hany
    rw [List.any_eq_true] at hany
    obtain ⟨x, hx, hbeq⟩ := hany
    rw [beq_iff_eq, hmid] at hbeq
    exact hfresh x hx hbeq
  · intro hgid hfresh
    simp only [GroupChatWindow.groupIncoming]
    rw [if_pos (by rw [beq_iff_eq, hgid])]
    unfold GroupChatWindow.handleNewMessage
    rw [if_neg]
    intro hany
    rw [List.any_eq_true] at hany
    obtain ⟨x, hx, hbeq⟩ := hany
    rw [beq_iff_eq, enrichIncoming_id] at hbeq
    exact hfresh x hx hbeq

/-- Witness for C6: a one-row history is trivially ordered and carries its
join; a fresh conversation push lands at the end of the empty list. -/
theorem c6_load_order_and_append_witness :
    ([⟨"m1", "s", "u", "hi", "text", false, 1, []⟩] : List Msg).Pairwise
      ChatWindow.createdLe ∧
    ChatWindow.chatIncoming (some "s") (some "u") [] []
        ⟨"m1", "s", "u", "hi", "text", false, 1, []⟩ =
      [⟨"m1", "s", "u", "hi", "text", false, 1, []⟩] := by
  constructor
  · exact ((c6_load_order_and_append "u" "s" "g"
      [⟨"m1", "s", "u", "hi", "text", false, 1, []⟩] [] [] [] [] [] []
      ⟨"m1", "s", "u", "hi", "text", false, 1, []⟩
      ⟨"gm", "g", "p", "yo", "text", 2, none, []⟩).1
      [⟨"m1", "s", "u", "hi", "text", false, 1, []⟩] rfl).1
  · exact ((c6_load_order_and_append "u" "s" "g" [] [] [] [] [] [] []
      ⟨"m1", "s", "u", "hi", "text", false, 1, []⟩
      ⟨"gm", "g", "p", "yo", "text", 2, none, []⟩).2.2.1 (by decide)
      (by intro x hx; cases hx)).trans (by decide)

/-- C7: in every loaded contact list the annotated unread count is the
number of unread messages from that contact to the current user, and in
every loaded group list it is the number of group messages from other
senders newer than the member's `last_read_at` (all of them when
`last_read_at` is null). -/
theorem c7_unread_counts (uid : String) (profiles : List ProfileRow) (msgs : List Msg)
    (groupsTable : List GroupList.GroupRow) (membersTable : List GroupList.GroupMemberRow)
    (gmsgs : List GroupChatWindow.GMsg) :
    (∀ l, UserList.loadUsers (some uid) profiles msgs = some l → ∀ e ∈ l,
      e.unreadCount = msgs.countP
        (fun m => m.sender_id == e.id && m.receiver_id == uid && m.read == false)) ∧
    (∀ l, GroupList.loadGroups (some uid) groupsTable membersTable gmsgs = some l →
      ∀ e ∈ l,
      e.unreadCount =
        match GroupList.lastReadOf membersTable e.id uid with
        | some t => gmsgs.countP
            (fun m => m.group_id == e.id && m.sender_id != uid && t < m.created_at)
        | none => gmsgs.countP (fun m => m.group_id == e.id && m.sender_id != uid)) := by
  constructor
  · intro l hl e he
    simp only [UserList.loadUsers, Option.map, Option.some.injEq] at hl
    subst hl
    have he2 := (List.perm_insertionSort UserList.userLe _).mem_iff.mp he
    obtain ⟨p, _, rfl⟩ := List.mem_map.mp he2
    simp only [UserList.annotateUser, UserList.userUnread]
    rw [List.countP_eq_length_filter]
  · intro l hl e he
    simp only [GroupList.loadGroups, Option.map, Option.some.injEq] at hl
    subst hl
    have he2 := (List.perm_insertionSort GroupList.groupLe _).mem_iff.mp he
    obtain ⟨gr, _, rfl⟩ := List.mem_map.mp he2
    simp only [GroupList.annotateGroup]
    cases hlr : GroupList.lastReadOf membersTable gr.id uid with
    | none => simp only [GroupList.groupUnread, hlr, List.countP_eq_length_filter]
    | some t => simp only [GroupList.groupUnread, hlr, List.countP_eq_length_filter]

/-- Witness for C7: a single unread message yields unread count 1 for its
sender in the contact list. -/
theorem c7_unread_counts_witness :
    (UserList.annotateUser "u" [⟨"m1", "p", "u", "hi", "text", false, 1, []⟩]
        ⟨"p", "p@x", "Pat", false⟩).unreadCount =
      ([⟨"m1", "p", "u", "hi", "text", false, 1, []⟩] : List Msg).countP
        (fun m => m.sender_id == "p" && m.receiver_id == "u" && m.read == false) := by
  exact (c7_unread_counts "u" [⟨"p", "p@x", "Pat", false⟩]
      [⟨"m1", "p", "u", "hi", "text", false, 1, []⟩] [] [] []).1
    [UserList.annotateUser "u" [⟨"m1", "p", "u", "hi", "text", false, 1, []⟩]
      ⟨"p", "p@x", "Pat", false⟩] rfl
    (UserList.annotateUser "u" [⟨"m1", "p", "u", "hi", "text", false, 1, []⟩]
      ⟨"p", "p@x", "Pat", false⟩) (by simp)

lemma strCmp_le_iff (a b : String) : strCmp a b ≤ 0 ↔ a ≤ b := by
  unfold strCmp
  by_cases h1 : a < b
  · simp [h1, le_of_lt h1]
  · by_cases h2 : a = b
    · simp [h1, h2]
    · have : ¬ a ≤ b := fun hle => h2 (le_antisymm hle (le_of_not_lt h1))
      simp [h1, h2, this]

lemma tripleLt_trans {a b c : Nat × Nat × Int} (h1 : tripleLt a b)
    (h2 : tripleLt b c) : tripleLt a c := by
  obtain ⟨a1, a2, a3⟩ := a
  obtain ⟨b1, b2, b3⟩ := b
  obtain ⟨c1, c2, c3⟩ := c
  simp only [tripleLt] at *
  omega

lemma lexKeyLe_trans {γ : Type} [LinearOrder γ] {a b c : Nat × Nat × Int × γ}
    (h1 : lexKeyLe a b) (h2 : lexKeyLe b c) : lexKeyLe a c := by
  rcases h1 with h1 | ⟨e1, le1⟩
  · rcases h2 with h2 | ⟨e2, le2⟩
    · exact Or.inl (tripleLt_trans h1 h2)
    · exact Or.inl (e2 ▸ h1)
  · rcases h2 with h2 | ⟨e2, le2⟩
    · refine Or.inl ?_
      rw [e1]
      exact h2
    · exact Or.inr ⟨e1.trans e2, le_trans le1 le2⟩

lemma lexKeyLe_total {γ : Type} [LinearOrder γ] (a b : Nat × Nat × Int × γ) :
    lexKeyLe a b ∨ lexKeyLe b a := by
  have ht : tripleLt (a.1, a.2.1, a.2.2.1) (b.1, b.2.1, b.2.2.1) ∨
      (a.1, a.2.1, a.2.2.1) = (b.1, b.2.1, b.2.2.1) ∨
      tripleLt (b.1, b.2.1, b.2.2.1) (a.1, a.2.1, a.2.2.1) := by
    simp only [tripleLt, Prod.mk.injEq]
    omega
  rcases ht with h | h | h
  · exact Or.inl (Or.inl h)
  · rcases le_total a.2.2.2 b.2.2.2 with hle | hle
    · exact Or.inl (Or.inr ⟨h, hle⟩)
    · exact Or.inr (Or.inr ⟨h.symm, hle⟩)
  · exact Or.inr (Or.inl h)

lemma userLe_iff (a b : UserList.UserEntry) :
    UserList.userLe a b ↔ lexKeyLe (UserList.uKey a) (UserList.uKey b) := by
  obtain ⟨ia, na, oa, ua, ma⟩ := a
  obtain ⟨ib, nb, ob, ub, mb⟩ := b
  simp only [UserList.userLe, UserList.compareUsers, UserList.uKey, lexKeyLe, tripleLt]
  by_cases hua : ua = 0 <;> by_cases hub : ub = 0 <;> cases ma <;> cases mb <;>
    simp [hua, hub, Nat.pos_iff_ne_zero, strCmp_le_iff, Prod.mk.injEq] <;>
    omega

lemma groupLe_iff (a b : GroupList.GroupEntry) :
    GroupList.groupLe a b ↔ lexKeyLe (GroupList.gKey a) (GroupList.gKey b) := by
  obtain ⟨ia, na, ca, mca, ua, ma⟩ := a
  obtain ⟨ib, nb, cb, mcb, ub, mb⟩ := b
  simp only [GroupList.groupLe, GroupList.compareGroups, GroupList.gKey, lexKeyLe, tripleLt]
  by_cases hua : ua = 0 <;> by_cases hub : ub = 0 <;> cases ma <;> cases mb <;>
    simp [hua, hub, Nat.pos_iff_ne_zero, Prod.mk.injEq] <;>
    omega

lemma userLe_imp_unreadThenRecency {a b : UserList.UserEntry}
    (h : UserList.userLe a b) : UserList.unreadThenRecency a b := by
  rw [userLe_iff] at h
  constructor
  · rintro ⟨ha0, hbpos⟩
    have ka : (UserList.uKey a).1 = 1 := by simp [UserList.uKey, ha0]
    have kb : (UserList.uKey b).1 = 0 := by simp [UserList.uKey, hbpos]
    rcases h with h | ⟨e, _⟩
    · simp only [tripleLt] at h
      rcases h with h | ⟨e1, _⟩
      · rw [ka, kb] at h
        exact absurd h (by omega)
      · rw [ka, kb] at e1
        exact absurd e1 (by omega)
    · simp only [Prod.mk.injEq] at e
      rw [ka, kb] at e
      exact absurd e.1 (by omega)
  · intro hiff x y hx hy
    have ka1 : (UserList.uKey a).1 = (UserList.uKey b).1 := by
      by_cases hp : 0 < a.unreadCount
      · simp [UserList.uKey, hp, hiff.mp hp]
      · have hq : ¬ 0 < b.unreadCount := fun hb => hp (hiff.mpr hb)
        simp [UserList.uKey, hp, hq]
    have ka2 : (UserList.uKey a).2.1 = 0 := by simp [UserList.uKey, hx]
    have kb2 : (UserList.uKey b).2.1 = 0 := by simp [UserList.uKey, hy]
    have ka3 : (UserList.uKey a).2.2.1 = -x.created_at := by simp [UserList.uKey, hx]
    have kb3 : (UserList.uKey b).2.2.1 = -y.created_at := by simp [UserList.uKey, hy]
    rcases h with h | ⟨e, _⟩
    · simp only [tripleLt] at h
      rw [ka1, ka2, kb2, ka3, kb3] at h
      omega
    · simp only [Prod.mk.injEq] at e
      rcases e with ⟨_, _, e3⟩
      rw [ka3, kb3] at e3
      omega

lemma groupLe_imp_unreadThenRecencyG {a b : GroupList.GroupEntry}
    (h : GroupList.groupLe a b) : GroupList.unreadThenRecencyG a b := by
  rw [groupLe_iff] at h
  constructor
  · rintro ⟨ha0, hbpos⟩
    have ka : (GroupList.gKey a).1 = 1 := by simp [GroupList.gKey, ha0]
    have kb : (GroupList.gKey b).1 = 0 := by simp [GroupList.gKey, hbpos]
    rcases h with h | ⟨e, _⟩
    · simp only [tripleLt] at h
      rcases h with h | ⟨e1, _⟩
      · rw [ka, kb] at h
        exact absurd h (by omega)
      · rw [ka, kb] at e1
        exact absurd e1 (by omega)
    · simp only [Prod.mk.injEq] at e
      rw [ka, kb] at e
      exact absurd e.1 (by omega)
  · intro hiff x y hx hy
    have ka1 : (GroupList.gKey a).1 = (GroupList.gKey b).1 := by
      by_cases hp : 0 < a.unreadCount
      · simp [GroupList.gKey, hp, hiff.mp hp]
      · have hq : ¬ 0 < b.unreadCount := fun hb => hp (hiff.mpr hb)
        simp [GroupList.gKey, hp, hq]
    have ka2 : (GroupList.gKey a).2.1 = 0 := by simp [GroupList.gKey, hx]
    have kb2 : (GroupList.gKey b).2.1 = 0 := by simp [GroupList.gKey, hy]
    have ka3 : (GroupList.gKey a).2.2.1 = -x.created_at := by simp [GroupList.gKey, hx]
    have kb3 : (GroupList.gKey b).2.2.1 = -y.created_at := by simp [GroupList.gKey, hy]
    rcases h with h | ⟨e, _⟩
    · simp only [tripleLt] at h
      rw [ka1, ka2, kb2, ka3, kb3] at h
      omega
    · simp only [Prod.mk.injEq] at e
      rcases e with ⟨_, _, e3⟩
      rw [ka3, kb3] at e3
      omega

/-- C3 counterexample: the comparator puts entries with unread messages
first, so a contact with an unread but older last message is rendered
before a contact whose last message is strictly later: the sorted list is
not ordered by last-message recency alone. -/
theorem c3_counterexample :
    ¬ UserList.recencySorted (UserList.sortUsers
      [⟨"a", "alice", false, 0, some ⟨"hi", 10, "a", "text"⟩⟩,
       ⟨"b", "bob", false, 1, some ⟨"yo", 5, "b", "text"⟩⟩]) := by
  unfold UserList.recencySorted
  decide

/-- C3 (amended): after every load both lists are sorted with unread
entries first; among two entries in the same unread class that both carry
a most-recent message, the entry with the later last message appears
earlier. -/
theorem c3_unread_then_recency (us : List UserList.UserEntry)
    (gs : List GroupList.GroupEntry) :
    (UserList.sortUsers us).Pairwise UserList.unreadThenRecency ∧
    (GroupList.sortGroups gs).Pairwise GroupList.unreadThenRecencyG := by
  constructor
  · haveI : IsTrans UserList.UserEntry UserList.userLe :=
      ⟨fun a b c hab hbc => by
        rw [userLe_iff] at *
        exact lexKeyLe_trans hab hbc⟩
    haveI : IsTotal UserList.UserEntry UserList.userLe :=
      ⟨fun a b => by
        simp only [userLe_iff]
        exact lexKeyLe_total _ _⟩
    exact (List.sorted_insertionSort UserList.userLe us).imp
      userLe_imp_unreadThenRecency
  · haveI : IsTrans GroupList.GroupEntry GroupList.groupLe :=
      ⟨fun a b c hab hbc => by
        rw [groupLe_iff] at *
        exact lexKeyLe_trans hab hbc⟩
    haveI : IsTotal GroupList.GroupEntry GroupList.groupLe :=
      ⟨fun a b => by
        simp only [groupLe_iff]
        exact lexKeyLe_total _ _⟩
    exact (List.sorted_insertionSort GroupList.groupLe gs).imp
      groupLe_imp_unreadThenRecencyG

/-- Witness for the amended C3 on concrete two-entry lists. -/
theorem c3_unread_then_recency_witness :
    (UserList.sortUsers
      [⟨"a", "alice", false, 0, some ⟨"hi", 10, "a", "text"⟩⟩,
       ⟨"b", "bob", false, 1, some ⟨"yo", 5, "b", "text"⟩⟩]).Pairwise
      UserList.unreadThenRecency := by
  exact (c3_unread_then_recency
    [⟨"a", "alice", false, 0, some ⟨"hi", 10, "a", "text"⟩⟩,
     ⟨"b", "bob", false, 1, some ⟨"yo", 5, "b", "text"⟩⟩] []).1

end Chathola
